import Mathlib

/-!
# Verification of the sanctum-sdk-node RPC transport/session core

A shallow embedding of the client-side vault SDK:

* `src/protocol.ts` — frame codec (`encodeFrame`/`decodeFrame`) and the error
  mapper (`raiseOnError`);
* `src/errors.ts` — the typed error hierarchy and the `CODE_TO_ERROR` table;
* `src/client.ts` — the request multiplexer (`onData`), the socket event
  handling installed by `rawConnect`, the authentication handshake, and the
  session/lease manager (`connect`, `retrieve`, `list`, `use`, `releaseLease`,
  `close`).

JSON values are modelled by the inductive `Json` below.  The platform
functions `JSON.stringify` / `JSON.parse` that the source calls are modelled by
an executable serializer `strJ` and a fuel-based recursive-descent parser
`parseJ`; wire bytes are `List Nat` (one entry per byte; faithful for the
ASCII fragment singled out by the well-formedness predicates).
-/

/-- A JavaScript JSON value.  Array and object spines are inlined into the
inductive (`arrCons`/`objCons` chains) so that every function below is plain
structural recursion, which the kernel can evaluate.  The predicate `jwfB`
characterises the values that actually denote JSON documents. -/

inductive Json where
  | null : Json
  | bool (b : Bool) : Json
  | num (n : Int) : Json
  | str (s : List Nat) : Json
  | arrNil : Json
  | arrCons (hd : Json) (tl : Json) : Json
  | objNil : Json
  | objCons (key : List Nat) (val : Json) (tl : Json) : Json
deriving DecidableEq

/-- Grammar well-formedness of a `Json` tree, by mode: mode `0` = a value,
mode `1` = the tail of an array, mode `2` = the tail of an object. -/
def jwfB : Nat → Json → Bool
  | 0, .null => true
  | 0, .bool _ => true
  | 0, .num _ => true
  | 0, .str _ => true
  | 0, .arrNil => true
  | 0, .arrCons x tl => jwfB 0 x && jwfB 1 tl
  | 0, .objNil => true
  | 0, .objCons _ v tl => jwfB 0 v && jwfB 2 tl
  | 1, .arrNil => true
  | 1, .arrCons x tl => jwfB 0 x && jwfB 1 tl
  | 2, .objNil => true
  | 2, .objCons _ v tl => jwfB 0 v && jwfB 2 tl
  | _, _ => false

/-- Fidelity restriction: strings are ASCII (so one list entry is one UTF-8
byte) and numbers are exactly representable JavaScript integers. -/
def fid : Json → Bool
  | .null => true
  | .bool _ => true
  | .num n => decide (n.natAbs < 2 ^ 53)
  | .str s => s.all (fun c => decide (c < 128))
  | .arrNil => true
  | .arrCons x tl => fid x && fid tl
  | .objNil => true
  | .objCons k v tl => (k.all (fun c => decide (c < 128))) && fid v && fid tl

/-- One hex digit character (lowercase), as emitted by `JSON.stringify` in
`\u00XX` escapes. -/
def hexDigitChar (n : Nat) : Nat := if n < 10 then 48 + n else 87 + n

/-- How `JSON.stringify` escapes a single character of a string: `"` and `\`
get a backslash, the five control characters with shorthand escapes use them,
any other control character becomes `\u00XX`, everything else is itself. -/
def escapeChar (c : Nat) : List Nat :=
  if c = 34 then [92, 34]
  else if c = 92 then [92, 92]
  else if c = 8 then [92, 98]
  else if c = 9 then [92, 116]
  else if c = 10 then [92, 110]
  else if c = 12 then [92, 102]
  else if c = 13 then [92, 114]
  else if c < 32 then [92, 117, 48, 48, hexDigitChar (c / 16), hexDigitChar (c % 16)]
  else [c]

/-- Escape a whole string body. -/
def escapeString : List Nat → List Nat
  | [] => []
  | c :: s => escapeChar c ++ escapeString s

/-- Decimal digits of a natural number (fuel-based so the kernel reduces it). -/
def natToDigitsFuel : Nat → Nat → List Nat
  | 0, _ => []
  | fuel + 1, n => if n < 10 then [48 + n] else natToDigitsFuel fuel (n / 10) ++ [48 + n % 10]

/-- Decimal digit characters of a natural number. -/
def natToDigits (n : Nat) : List Nat := natToDigitsFuel (n + 1) n

/-- How `JSON.stringify` prints an integral JavaScript number. -/
def intToBytes : Int → List Nat
  | .ofNat n => natToDigits n
  | .negSucc m => 45 :: natToDigits (m + 1)

/-- Model of `JSON.stringify` (compact form, as `JSON.stringify` emits):
`tail = false` renders a value, `tail = true` renders the continuation of an
array/object spine (`, elem … ]` resp. `, "key": value … }`). -/
def strJ : Bool → Json → List Nat
  | false, .null => [110, 117, 108, 108]
  | false, .bool true => [116, 114, 117, 101]
  | false, .bool false => [102, 97, 108, 115, 101]
  | false, .num n => intToBytes n
  | false, .str s => 34 :: escapeString s ++ [34]
  | false, .arrNil => [91, 93]
  | false, .arrCons x tl => 91 :: strJ false x ++ strJ true tl
  | false, .objNil => [123, 125]
  | false, .objCons k v tl => 123 :: 34 :: escapeString k ++ 34 :: 58 :: strJ false v ++ strJ true tl
  | true, .arrNil => [93]
  | true, .arrCons x tl => 44 :: strJ false x ++ strJ true tl
  | true, .objNil => [125]
  | true, .objCons k v tl => 44 :: 34 :: escapeString k ++ 34 :: 58 :: strJ false v ++ strJ true tl
  | true, .null => []
  | true, .bool _ => []
  | true, .num _ => []
  | true, .str _ => []

/-- `JSON.stringify` of a value. -/
def stringifyJson (j : Json) : List Nat := strJ false j

/-- Value of a hex digit character, if it is one. -/
def hexVal (c : Nat) : Option Nat :=
  if 48 ≤ c ∧ c ≤ 57 then some (c - 48)
  else if 97 ≤ c ∧ c ≤ 102 then some (c - 87)
  else if 65 ≤ c ∧ c ≤ 70 then some (c - 55)
  else none

/-- Unescape a single-character escape (`\"`, `\\`, `\/`, `\b`, `\f`, `\n`,
`\r`, `\t`). -/
def unescapeChar (e : Nat) : Option Nat :=
  if e = 34 then some 34
  else if e = 92 then some 92
  else if e = 47 then some 47
  else if e = 98 then some 8
  else if e = 102 then some 12
  else if e = 110 then some 10
  else if e = 114 then some 13
  else if e = 116 then some 9
  else none

/-- Parse the body of a JSON string up to (and consuming) the closing quote,
returning the unescaped characters and the remaining input. -/
def parseStrBody : Nat → List Nat → Option (List Nat × List Nat)
  | 0, _ => none
  | _ + 1, [] => none
  | fuel + 1, c :: r =>
    if c = 34 then some ([], r)
    else if c = 92 then
      match r with
      | [] => none
      | e :: r2 =>
        if e = 117 then
          match r2 with
          | h1 :: h2 :: h3 :: h4 :: r3 =>
            match hexVal h1, hexVal h2, hexVal h3, hexVal h4 with
            | some a, some b, some c2, some d =>
              match parseStrBody fuel r3 with
              | some (s, r4) => some ((((a * 16 + b) * 16 + c2) * 16 + d) :: s, r4)
              | none => none
            | _, _, _, _ => none
          | _ => none
        else
          match unescapeChar e with
          | some ch =>
            match parseStrBody fuel r2 with
            | some (s, r3) => some (ch :: s, r3)
            | none => none
          | none => none
    else
      match parseStrBody fuel r with
      | some (s, r2) => some (c :: s, r2)
      | none => none

/-- Is `c` a decimal digit character? -/
def isDigit (c : Nat) : Bool := decide (48 ≤ c) && decide (c ≤ 57)

/-- Split off the longest prefix of digit characters. -/
def takeDigits : List Nat → List Nat × List Nat
  | [] => ([], [])
  | c :: r =>
    if isDigit c then
      let p := takeDigits r
      (c :: p.1, p.2)
    else ([], c :: r)

/-- Numeric value of a digit string. -/
def digitsToNat (ds : List Nat) : Nat := ds.foldl (fun a d => a * 10 + (d - 48)) 0

/-- Parse an (integral) JSON number. -/
def parseNum (s : List Nat) : Option (Int × List Nat) :=
  match s with
  | [] => none
  | c :: r =>
    if c = 45 then
      match takeDigits r with
      | ([], _) => none
      | (d :: ds, rest) => some (-(digitsToNat (d :: ds) : Int), rest)
    else
      match takeDigits (c :: r) with
      | ([], _) => none
      | (d :: ds, rest) => some ((digitsToNat (d :: ds) : Int), rest)

/-- Parser mode: a value, the interior of an array (just after `[` resp. after
an element), or the interior of an object. -/
inductive PMode where
  | val | arrFirst | arrTail | objFirst | objTail
deriving DecidableEq

/-- Model of `JSON.parse` restricted to the compact documents `strJ` emits: a
fuel-based recursive-descent parser returning the parsed value and the
unconsumed input. -/
def parseJ : Nat → PMode → List Nat → Option (Json × List Nat)
  | 0, _, _ => none
  | _ + 1, _, [] => none
  | fuel + 1, .val, c :: r =>
    if c = 110 then
      match r with
      | 117 :: 108 :: 108 :: r2 => some (.null, r2)
      | _ => none
    else if c = 116 then
      match r with
      | 114 :: 117 :: 101 :: r2 => some (.bool true, r2)
      | _ => none
    else if c = 102 then
      match r with
      | 97 :: 108 :: 115 :: 101 :: r2 => some (.bool false, r2)
      | _ => none
    else if c = 34 then
      match parseStrBody (r.length + 1) r with
      | some (s, r2) => some (.str s, r2)
      | none => none
    else if c = 91 then parseJ fuel .arrFirst r
    else if c = 123 then parseJ fuel .objFirst r
    else
      match parseNum (c :: r) with
      | some (n, r2) => some (.num n, r2)
      | none => none
  | fuel + 1, .arrFirst, c :: r =>
    if c = 93 then some (.arrNil, r)
    else
      match parseJ fuel .val (c :: r) with
      | some (x, r2) =>
        match parseJ fuel .arrTail r2 with
        | some (tl, r3) => some (.arrCons x tl, r3)
        | none => none
      | none => none
  | fuel + 1, .arrTail, c :: r =>
    if c = 93 then some (.arrNil, r)
    else if c = 44 then
      match parseJ fuel .val r with
      | some (x, r2) =>
        match parseJ fuel .arrTail r2 with
        | some (tl, r3) => some (.arrCons x tl, r3)
        | none => none
      | none => none
    else none
  | fuel + 1, .objFirst, c :: r =>
    if c = 125 then some (.objNil, r)
    else if c = 34 then
      match parseStrBody (r.length + 1) r with
      | some (k, r2) =>
        match r2 with
        | 58 :: r3 =>
          match parseJ fuel .val r3 with
          | some (v, r4) =>
            match parseJ fuel .objTail r4 with
            | some (tl, r5) => some (.objCons k v tl, r5)
            | none => none
          | none => none
        | _ => none
      | none => none
    else none
  | fuel + 1, .objTail, c :: r =>
    if c = 125 then some (.objNil, r)
    else if c = 44 then
      match r with
      | c2 :: r1 =>
        if c2 = 34 then
          match parseStrBody (r1.length + 1) r1 with
          | some (k, r2) =>
            match r2 with
            | 58 :: r3 =>
              match parseJ fuel .val r3 with
              | some (v, r4) =>
                match parseJ fuel .objTail r4 with
                | some (tl, r5) => some (.objCons k v tl, r5)
                | none => none
              | none => none
            | _ => none
          | none => none
        else none
      | [] => none
    else none

/-- `JSON.parse`: the whole input must be consumed by one value. -/
def jsonParseFull (s : List Nat) : Option Json :=
  match parseJ (s.length + 1) .val s with
  | some (j, []) => some j
  | _ => none

/-- The remaining input does not start with a digit (so a number parse stops
exactly at the boundary). -/
def headNotDigit : List Nat → Prop
  | [] => True
  | c :: _ => isDigit c = false

/-- `MAX_MESSAGE_SIZE` (protocol.ts line 9): 4 MiB. -/
def MAX_MESSAGE_SIZE : Nat := 4 * 1024 * 1024

/-- The 4 big-endian bytes written by `Buffer.writeUInt32BE`. -/
def u32be (n : Nat) : List Nat :=
  [n / 2 ^ 24 % 256, n / 2 ^ 16 % 256, n / 2 ^ 8 % 256, n % 256]

/-- `Buffer.readUInt32BE(0)`: the big-endian value of the first four bytes
(callers always guard `length ≥ 4` first, so the under-4 default is inert). -/
def readUInt32BE : List Nat → Nat
  | b0 :: b1 :: b2 :: b3 :: _ => ((b0 * 256 + b1) * 256 + b2) * 256 + b3
  | _ => 0

/-- `encodeFrame` (protocol.ts lines 12-17): 4-byte big-endian length prefix
followed by the JSON payload. -/
def encodeFrame (obj : Json) : List Nat :=
  u32be (strJ false obj).length ++ strJ false obj

/-- The failure modes of `decodeFrame` (each a `VaultError` in the source;
`badJson` stands for the `SyntaxError` that `JSON.parse` raises). -/
inductive FrameError where
  | incompleteHeader | frameTooLarge | incompleteBody | badJson
deriving DecidableEq

/-- `decodeFrame` (protocol.ts lines 20-35): reject on fewer than 4 bytes,
then on a declared length over `MAX_MESSAGE_SIZE`, then on fewer than
`4 + length` bytes; otherwise parse the body as JSON and return it together
with the unconsumed remainder. -/
def decodeFrame (data : List Nat) : Except FrameError (Json × List Nat) :=
  if data.length < 4 then .error .incompleteHeader
  else
    if MAX_MESSAGE_SIZE < readUInt32BE data then .error .frameTooLarge
    else if data.length < 4 + readUInt32BE data then .error .incompleteBody
    else
      match jsonParseFull ((data.drop 4).take (readUInt32BE data)) with
      | some obj => .ok (obj, data.drop (4 + readUInt32BE data))
      | none => .error .badJson

/-- A 4194305-character string: its JSON serialization is 4194307 bytes,
which exceeds `MAX_MESSAGE_SIZE` (4194304). -/
def c7big : Json := .str (List.replicate 4194305 97)

/-- A small concrete request object for the C7 witness. -/
def c7wa : Json := .objCons [105, 100] (.num 1) (.objCons [107] (.str [104, 105]) .objNil)

/-- A small concrete value for the C7 witness. -/
def c7wb : Json := .arrCons (.num (-3)) (.arrCons .null .arrNil)

/-- Which error class is instantiated (`VaultError` and its subclasses). -/
inductive ErrKind where
  | vaultError | authError | accessDenied | credentialNotFound
  | vaultLocked | leaseExpired | rateLimited | sessionExpired
deriving DecidableEq

/-- The fixed `code` each subclass constructor passes to `super`
(`VaultError` itself defaults to `"UNKNOWN"`). -/
def defaultCode : ErrKind → String
  | .vaultError => "UNKNOWN"
  | .authError => "AUTH_FAILED"
  | .accessDenied => "ACCESS_DENIED"
  | .credentialNotFound => "CREDENTIAL_NOT_FOUND"
  | .vaultLocked => "VAULT_LOCKED"
  | .leaseExpired => "LEASE_EXPIRED"
  | .rateLimited => "RATE_LIMITED"
  | .sessionExpired => "SESSION_EXPIRED"

/-- The fields of a constructed error object.  `context` is carried as a
JSON value (`Record<string, unknown>` in the source). -/
structure RaisedError where
  kind : ErrKind
  message : String
  code : String
  detail : Option String
  suggestion : Option String
  docsUrl : Option String
  context : Json
deriving DecidableEq

/-- Constructing an error object: each subclass runs
`super(message, { code: FIXED, ...opts })`, so an explicit `opts.code`
overrides the subclass's fixed code; `VaultError` defaults `code` to
`"UNKNOWN"` and `context` to `{}` (errors.ts lines 9-27). -/
def mkError (kind : ErrKind) (message : String) (code : Option String)
    (detail suggestion docsUrl : Option String) (context : Option Json) : RaisedError :=
  { kind, message, code := code.getD (defaultCode kind), detail, suggestion, docsUrl,
    context := context.getD .objNil }

/-- `CODE_TO_ERROR` (errors.ts lines 78-86). -/
def CODE_TO_ERROR (code : String) : Option ErrKind :=
  if code = "AUTH_FAILED" then some .authError
  else if code = "ACCESS_DENIED" then some .accessDenied
  else if code = "CREDENTIAL_NOT_FOUND" then some .credentialNotFound
  else if code = "VAULT_LOCKED" then some .vaultLocked
  else if code = "LEASE_EXPIRED" then some .leaseExpired
  else if code = "RATE_LIMITED" then some .rateLimited
  else if code = "SESSION_EXPIRED" then some .sessionExpired
  else none

/-- A structured wire error (`src/types.ts` lines 19-26).  The fields are
optional here because `raiseOnError` defends against their absence with
`??` even though the TypeScript type declares `code` and `message`. -/
structure StructuredError where
  code : Option String
  message : Option String
  detail : Option String
  suggestion : Option String
  docs_url : Option String
  context : Option Json
deriving DecidableEq

/-- An RPC response (`src/types.ts` lines 12-16). -/
structure RpcResponse where
  id : Int
  result : Option Json
  error : Option (String ⊕ StructuredError)
deriving DecidableEq

/-- `raiseOnError` (protocol.ts lines 38-56), returning the error it would
throw (`none` = no throw): no-op without an error; a plain string becomes a
generic `VaultError` (code `"UNKNOWN"`); a structured error resolves its
class through `CODE_TO_ERROR` (default `VaultError`), with
`code ?? "INTERNAL_ERROR"`, `message ?? "Unknown error"`, `detail`,
`suggestion`, `docs_url` (as `docsUrl`) and `context ?? {}`. -/
def raiseOnError (resp : RpcResponse) : Option RaisedError :=
  match resp.error with
  | none => none
  | some (.inl s) => some (mkError .vaultError s none none none none none)
  | some (.inr se) =>
    some (mkError ((CODE_TO_ERROR (se.code.getD "INTERNAL_ERROR")).getD .vaultError)
      (se.message.getD "Unknown error") (some (se.code.getD "INTERNAL_ERROR"))
      se.detail se.suggestion se.docs_url se.context)

/-- Property lookup on a parsed JSON object (`undefined` for a missing key
or a non-object). -/
def getField : Json → List Nat → Option Json
  | .objCons k v tl, key => if k = key then some v else getField tl key
  | _, _ => none

/-- JavaScript `x ?? d` (nullish coalescing) on an optional field. -/
def jnn (x : Option Json) (d : Json) : Json :=
  match x with
  | none => d
  | some .null => d
  | some v => v

/-- `err == null` is true for both `undefined` and `null`. -/
def nonNull (x : Option Json) : Option Json :=
  match x with
  | some .null => none
  | x => x

/-- The key `"id"`. -/
def idKey : List Nat := [105, 100]

/-- The key `"result"`. -/
def resultKey : List Nat := [114, 101, 115, 117, 108, 116]

/-- The key `"error"`. -/
def errorKey : List Nat := [101, 114, 114, 111, 114]

/-- The key `"code"`. -/
def codeKey : List Nat := [99, 111, 100, 101]

/-- The key `"message"`. -/
def messageKey : List Nat := [109, 101, 115, 115, 97, 103, 101]

/-- The key `"detail"`. -/
def detailKey : List Nat := [100, 101, 116, 97, 105, 108]

/-- The key `"suggestion"`. -/
def suggestionKey : List Nat := [115, 117, 103, 103, 101, 115, 116, 105, 111, 110]

/-- The key `"docs_url"`. -/
def docsUrlKey : List Nat := [100, 111, 99, 115, 95, 117, 114, 108]

/-- The key `"context"`. -/
def contextKey : List Nat := [99, 111, 110, 116, 101, 120, 116]

/-- `"UNKNOWN"` as bytes. -/
def unknownCodeBytes : List Nat := [85, 78, 75, 78, 79, 87, 78]

/-- `"INTERNAL_ERROR"` as bytes. -/
def internalErrorBytes : List Nat := [73, 78, 84, 69, 82, 78, 65, 76, 95, 69, 82, 82, 79, 82]

/-- `"Unknown error"` as bytes. -/
def unknownMessageBytes : List Nat :=
  [85, 110, 107, 110, 111, 119, 110, 32, 101, 114, 114, 111, 114]

/-- `CODE_TO_ERROR` lookup on a wire code given as bytes. -/
def codeKindBytes (code : List Nat) : Option ErrKind :=
  if code = [65, 85, 84, 72, 95, 70, 65, 73, 76, 69, 68] then some .authError
  else if code = [65, 67, 67, 69, 83, 83, 95, 68, 69, 78, 73, 69, 68] then some .accessDenied
  else if code = [67, 82, 69, 68, 69, 78, 84, 73, 65, 76, 95, 78, 79, 84, 95, 70, 79, 85,
    78, 68] then some .credentialNotFound
  else if code = [86, 65, 85, 76, 84, 95, 76, 79, 67, 75, 69, 68] then some .vaultLocked
  else if code = [76, 69, 65, 83, 69, 95, 69, 88, 80, 73, 82, 69, 68] then some .leaseExpired
  else if code = [82, 65, 84, 69, 95, 76, 73, 77, 73, 84, 69, 68] then some .rateLimited
  else if code = [83, 69, 83, 83, 73, 79, 78, 95, 69, 88, 80, 73, 82, 69, 68] then
    some .sessionExpired
  else none

/-- The error object as constructed at runtime from a parsed JSON response;
fields are the raw JSON values the JavaScript would store. -/
structure JErr where
  kind : ErrKind
  message : Json
  code : Json
  detail : Option Json
  suggestion : Option Json
  docsUrl : Option Json
  context : Json
deriving DecidableEq

/-- `raiseOnError` as it acts on a parsed JSON response object at runtime. -/
def raiseOnErrorJ (resp : Json) : Option JErr :=
  match nonNull (getField resp errorKey) with
  | none => none
  | some (.str s) =>
    some ⟨.vaultError, .str s, .str unknownCodeBytes, none, none, none, .objNil⟩
  | some e =>
    some ⟨(match jnn (getField e codeKey) (.str internalErrorBytes) with
        | .str cs => (codeKindBytes cs).getD .vaultError
        | _ => .vaultError),
      jnn (getField e messageKey) (.str unknownMessageBytes),
      jnn (getField e codeKey) (.str internalErrorBytes),
      getField e detailKey, getField e suggestionKey, getField e docsUrlKey,
      jnn (getField e contextKey) .objNil⟩

/-- How a pending call's promise settles (client.ts lines 124-131): run the
error mapper; on a raise the caller's wait fails with that error, otherwise
it succeeds with `resp.result ?? {}`. -/
def settleOutcome (resp : Json) : Except JErr Json :=
  match raiseOnErrorJ resp with
  | some e => .error e
  | none => .ok (jnn (getField resp resultKey) .objNil)

deriving instance DecidableEq for Except

/-- The multiplexer state: the receive buffer, the pending-call ids, the
calls settled so far (in completion order), and whether the data handler
threw (an exception out of `JSON.parse` propagates out of the `data`
listener). -/
structure MuxState where
  buffer : List Nat
  pending : List Nat
  settled : List (Nat × Except JErr Json)
  crashed : Bool
deriving DecidableEq

/-- Dispatch one decoded response frame (client.ts lines 107-111): look the
id up among the pending calls; on a hit remove it and settle it; a frame
for an unknown id is silently dropped. -/
def dispatchResp (s : MuxState) (j : Json) : MuxState :=
  match getField j idKey with
  | some (.num n) =>
    match s.pending.find? (fun k : Nat => Int.ofNat k == n) with
    | some pid =>
      { s with pending := s.pending.erase pid,
               settled := s.settled ++ [(pid, settleOutcome j)] }
    | none => s
  | _ => s

/-- The `while` loop of `onData` (client.ts lines 100-112): while at least
4 bytes are buffered, read the big-endian length; stop if the body is not
complete yet; otherwise `JSON.parse` the body (a parse failure escapes the
handler: `crashed`), advance the buffer past the frame and dispatch.
There is no size check against `MAX_MESSAGE_SIZE` in this loop. -/
def onDataLoop : Nat → MuxState → MuxState
  | 0, s => s
  | fuel + 1, s =>
    if s.buffer.length < 4 then s
    else
      if s.buffer.length < 4 + readUInt32BE s.buffer then s
      else
        match jsonParseFull ((s.buffer.drop 4).take (readUInt32BE s.buffer)) with
        | none => { s with crashed := true }
        | some j =>
          onDataLoop fuel
            (dispatchResp { s with buffer := s.buffer.drop (4 + readUInt32BE s.buffer) } j)

/-- `onData` (client.ts lines 97-113): append the chunk to the buffer and
drain complete frames. -/
def onData (s : MuxState) (chunk : List Nat) : MuxState :=
  onDataLoop ((s.buffer ++ chunk).length + 1) { s with buffer := s.buffer ++ chunk }

/-- The client's view of the connection: the multiplexer state, whether the
`connect` event has fired (resolving `rawConnect`), whether the pre-connect
`error` listener rejected `rawConnect`, and whether a post-connect `error`
event went unhandled (`rawConnect` removed its only error listener on
`connect`, and no `close` listener is ever registered). -/
structure ClientConn where
  mux : MuxState
  connected : Bool
  connectRejected : Bool
  unhandledError : Bool
deriving DecidableEq

/-- The socket events relevant to the client. -/
inductive SockEvent where
  | connectEv
  | dataEv (chunk : List Nat)
  | errorEv
  | closeEv
deriving DecidableEq

/-- One socket event against the listeners the source installs:
`connect` resolves `rawConnect` and removes the error listener
(client.ts lines 90-93); `data` runs `onData` (line 88); `error` rejects
`rawConnect` before `connect` (line 89) and is unhandled after it (the
listener was removed on line 91 and nothing rejects pending calls);
no `close` listener exists anywhere in the source, so a `close` event
changes nothing. -/
def sockStep (s : ClientConn) : SockEvent → ClientConn
  | .connectEv => { s with connected := true }
  | .dataEv chunk => { s with mux := onData s.mux chunk }
  | .errorEv =>
    if s.connected then { s with unhandledError := true }
    else { s with connectRejected := true }
  | .closeEv => s

/-- The client state the session/lease operations act on: the active session
id, the tracked lease ids (`this.leases`), and whether a live socket exists
(`this.socket !== null`). -/
structure CState where
  sessionId : Option String
  leases : List String
  socketOn : Bool
deriving DecidableEq

/-- The `VaultError("Not connected", { code: "INTERNAL_ERROR" })` thrown by
`call` when no socket exists (client.ts line 119). -/
def notConnectedError : RaisedError :=
  mkError .vaultError "Not connected" (some "INTERNAL_ERROR") none none none none

/-- The `AuthError("Authentication not confirmed")` thrown when the
handshake is rejected (client.ts line 159); the `AuthError` constructor
fixes `code` to `"AUTH_FAILED"`. -/
def authNotConfirmedError : RaisedError :=
  mkError .authError "Authentication not confirmed" none none none none none

/-- The `authenticate` challenge response (`src/types.ts` lines 42-45). -/
structure AuthChallenge where
  session_id : String
  challenge : String
deriving DecidableEq

/-- The `challenge_response` confirmation (`src/types.ts` lines 48-50). -/
structure AuthConfirmation where
  authenticated : Bool
deriving DecidableEq

/-- `SanctumClient.authenticate` (client.ts lines 139-161) as a function of
the outcomes of its effectful steps: `keyr` is the result of `loadKey`
(an `AuthError` for a malformed key file), `r1` the `authenticate` RPC and
`r2` the `challenge_response` RPC.  The session id is assigned from the
challenge response (line 149) **before** the confirmation is checked, and
is left in place when the handshake then fails. -/
def authenticate (st : CState) (keyr : Except RaisedError Unit)
    (r1 : Except RaisedError AuthChallenge) (r2 : Except RaisedError AuthConfirmation) :
    Except RaisedError Unit × CState :=
  match keyr with
  | .error e => (.error e, st)
  | .ok _ =>
    match r1 with
    | .error e => (.error e, st)
    | .ok ch =>
      let st1 := { st with sessionId := some ch.session_id }
      match r2 with
      | .error e => (.error e, st1)
      | .ok conf =>
        if conf.authenticated then (.ok (), st1)
        else (.error authNotConfirmedError, st1)

/-- A connection target (`src/types.ts` line 2). -/
inductive ConnectionTarget where
  | path (p : String)
  | hostPort (host : String) (port : Nat)
deriving DecidableEq

/-- The construction-time target configuration (client.ts lines 31-34). -/
structure TargetCfg where
  socketPath : Option String
  host : Option String
  port : Option Nat
deriving DecidableEq

/-- How `connect` folds an explicit target into the configuration
(client.ts lines 64-73): a string target sets the socket path and clears
the host (the port is left as constructed); a host/port target sets both
and clears the socket path.  No conflict check is performed. -/
def applyTarget (c : TargetCfg) : Option ConnectionTarget → TargetCfg
  | none => c
  | some (.path p) => { c with socketPath := some p, host := none }
  | some (.hostPort h p) => { socketPath := none, host := some h, port := some p }

/-- The transport `rawConnect` opens. -/
inductive Transport where
  | tcp (host : String) (port : Nat)
  | unix (path : String)
deriving DecidableEq

/-- JavaScript truthiness of an optional string (`""` is falsy). -/
def truthyS : Option String → Bool
  | some s => !(s == "")
  | none => false

/-- JavaScript truthiness of an optional number (`0` is falsy). -/
def truthyN : Option Nat → Bool
  | some n => !(n == 0)
  | none => false

/-- `DEFAULT_SOCKET` (client.ts line 23). -/
def DEFAULT_SOCKET : String := "~/.sanctum/vault.sock"

/-- `expandHome` (client.ts lines 26-28), with the home directory as a
parameter. -/
def expandHome (home p : String) : String :=
  if p.startsWith "~" then home ++ p.drop 1 else p

/-- The transport choice in `rawConnect` (client.ts lines 82-87): TCP when
both `host` and `port` are truthy, otherwise the Unix socket at the
configured or default path. -/
def chooseTransport (home : String) (c : TargetCfg) : Transport :=
  if truthyS c.host && truthyN c.port then .tcp (c.host.getD "") (c.port.getD 0)
  else .unix (expandHome home (c.socketPath.getD DEFAULT_SOCKET))

/-- `SanctumClient.connect` (client.ts lines 63-78) as a function of the
network outcome (`net`, indexed by the transport actually dialled) and the
handshake outcome (`auth`): fold in the target, dial, authenticate.  It
never fails on conflicting target forms — when both a socket path and a
truthy host/port are configured, the host/port silently wins. -/
def connectModel (home : String) (c : TargetCfg) (target : Option ConnectionTarget)
    (net : Transport → Except RaisedError Unit) (auth : Except RaisedError Unit) :
    Except RaisedError (Transport × TargetCfg) :=
  let c2 := applyTarget c target
  match net (chooseTransport home c2) with
  | .error e => .error e
  | .ok _ =>
    match auth with
    | .error e => .error e
    | .ok _ => .ok (chooseTransport home c2, c2)

/-- Decode a hex string (given as character codes) to bytes, as
`Buffer.from(hex, "hex")` does on well-formed input (it stops at the first
non-hex pair). -/
def hexPairsToBytes : List Nat → List Nat
  | c1 :: c2 :: rest =>
    match hexVal c1, hexVal c2 with
    | some a, some b => (a * 16 + b) :: hexPairsToBytes rest
    | _, _ => []
  | _ => []

/-- The `retrieve` RPC result (`src/types.ts` lines 29-33), with the
hex-encoded value as character codes. -/
structure RetrieveResult where
  value : List Nat
  lease_id : String
deriving DecidableEq

/-- `SanctumClient.retrieve` (client.ts lines 179-188) as a function of the
RPC outcome: on success the returned `lease_id` is appended to the tracked
leases and the hex-decoded value is returned; `call` fails up front when no
socket exists. -/
def retrieveM (st : CState) (outcome : Except RaisedError RetrieveResult) :
    Except RaisedError (List Nat) × CState :=
  if st.socketOn then
    match outcome with
    | .error e => (.error e, st)
    | .ok r => (.ok (hexPairsToBytes r.value), { st with leases := st.leases ++ [r.lease_id] })
  else (.error notConnectedError, st)

/-- The key `"credentials"`. -/
def credentialsKey : List Nat := [99, 114, 101, 100, 101, 110, 116, 105, 97, 108, 115]

/-- `SanctumClient.list` (client.ts lines 191-194): returns
`result.credentials ?? []` and leaves the client state alone. -/
def listM (st : CState) (outcome : Except RaisedError Json) :
    Except RaisedError Json × CState :=
  if st.socketOn then
    match outcome with
    | .error e => (.error e, st)
    | .ok r => (.ok (jnn (getField r credentialsKey) .arrNil), st)
  else (.error notConnectedError, st)

/-- `SanctumClient.use` (client.ts lines 203-215): returns the raw result
mapping and leaves the client state alone. -/
def useM (st : CState) (outcome : Except RaisedError Json) :
    Except RaisedError Json × CState :=
  if st.socketOn then
    match outcome with
    | .error e => (.error e, st)
    | .ok r => (.ok r, st)
  else (.error notConnectedError, st)

/-- `SanctumClient.releaseLease` (client.ts lines 197-200) as a function of
the `release_lease` RPC outcome.  The third component lists the lease ids
for which a `release_lease` request was actually written to the socket.
The id is filtered out of the tracked set only after the RPC succeeds. -/
def releaseLeaseM (st : CState) (lid : String) (outcome : Except RaisedError Unit) :
    Except RaisedError Unit × CState × List String :=
  if st.socketOn then
    match outcome with
    | .error e => (.error e, st, [lid])
    | .ok _ => (.ok (), { st with leases := st.leases.filter (fun x => x != lid) }, [lid])
  else (.error notConnectedError, st, [])

/-- The loop of `close` (client.ts lines 219-225): iterate over a snapshot
of the tracked leases, releasing each and swallowing every failure. -/
def closeLoop (rel : String → Except RaisedError Unit) :
    List String → CState → CState × List String
  | [], st => (st, [])
  | lid :: rest, st =>
    let r := releaseLeaseM st lid (rel lid)
    let next := closeLoop rel rest r.2.1
    (next.1, r.2.2 ++ next.2)

/-- `SanctumClient.close` (client.ts lines 218-231): best-effort release of
every tracked lease over the snapshot `[...this.leases]`, then destroy the
socket and clear the session id.  It never returns an error. -/
def close (st : CState) (rel : String → Except RaisedError Unit) :
    Except RaisedError Unit × CState × List String :=
  let r := closeLoop rel st.leases st
  (.ok (), { r.1 with socketOn := false, sessionId := none }, r.2)

/-- The C1 counterexample state: connection established, one call (id 7)
in flight, nothing settled. -/
def c1state : ClientConn := ⟨⟨[], [7], [], false⟩, true, false, false⟩

/-- The conflicted configuration for C4: both a socket path and a truthy
host/port. -/
def c4cfg : TargetCfg := ⟨some "/tmp/vault.sock", some "localhost", some 8200⟩

/-- The oversized response frame for C2: `0x7b k"id":1,"result":"aa…a"0x7d`
with a 4194304-character string value, 4194324 payload bytes in all —
larger than `MAX_MESSAGE_SIZE`. -/
def c2big : List Nat := List.replicate 4194304 97

def c2resp : Json :=
  .objCons idKey (.num 1) (.objCons resultKey (.str c2big) .objNil)

/-! ### Round-trip lemmas for the JSON codec -/

theorem escapeChar_length_pos (c : Nat) : 1 ≤ (escapeChar c).length := by
  unfold escapeChar
  repeat' split
  all_goals simp

theorem length_le_escapeString (s : List Nat) : s.length ≤ (escapeString s).length := by
  induction s with
  | nil => simp [escapeString]
  | cons c t ih =>
    simp only [escapeString, List.length_cons, List.length_append]
    have := escapeChar_length_pos c
    omega

theorem natToDigitsFuel_digits : ∀ fuel n, n < fuel →
    ∀ c ∈ natToDigitsFuel fuel n, isDigit c = true := by
  intro fuel
  induction fuel with
  | zero => intro n h; omega
  | succ f ih =>
    intro n h c hc
    simp only [natToDigitsFuel] at hc
    by_cases h10 : n < 10
    · rw [if_pos h10] at hc
      simp at hc
      subst hc
      simp [isDigit]
      omega
    · rw [if_neg h10] at hc
      rw [List.mem_append] at hc
      rcases hc with hc | hc
      · exact ih (n / 10) (by omega) c hc
      · simp at hc
        subst hc
        simp [isDigit]
        omega

theorem natToDigitsFuel_ne_nil : ∀ fuel n, n < fuel → natToDigitsFuel fuel n ≠ [] := by
  intro fuel n h
  cases fuel with
  | zero => omega
  | succ f =>
    simp only [natToDigitsFuel]
    by_cases h10 : n < 10
    · simp [h10]
    · simp [h10]

theorem natToDigitsFuel_foldl : ∀ fuel n acc, n < fuel →
    (natToDigitsFuel fuel n).foldl (fun a d => a * 10 + (d - 48)) acc =
      acc * 10 ^ (natToDigitsFuel fuel n).length + n := by
  intro fuel
  induction fuel with
  | zero => intro n acc h; omega
  | succ f ih =>
    intro n acc h
    simp only [natToDigitsFuel]
    by_cases h10 : n < 10
    · rw [if_pos h10]
      simp only [List.foldl, List.length_cons, List.length_nil, pow_one]
      omega
    · rw [if_neg h10]
      rw [List.foldl_append, List.length_append, ih (n / 10) acc (by omega)]
      simp only [List.foldl, List.length_cons, List.length_nil]
      rw [pow_succ, ← mul_assoc]
      generalize acc * 10 ^ (natToDigitsFuel f (n / 10)).length = A
      omega

theorem digitsToNat_natToDigits (n : Nat) : digitsToNat (natToDigits n) = n := by
  unfold digitsToNat natToDigits
  rw [natToDigitsFuel_foldl (n + 1) n 0 (by omega)]
  simp

theorem takeDigits_append : ∀ (ds rest : List Nat), (∀ c ∈ ds, isDigit c = true) →
    headNotDigit rest → takeDigits (ds ++ rest) = (ds, rest) := by
  intro ds
  induction ds with
  | nil =>
    intro rest _ hrest
    cases rest with
    | nil => rfl
    | cons c t =>
      have hc : isDigit c = false := hrest
      simp [takeDigits, hc]
  | cons d ds ih =>
    intro rest hds hrest
    have hd : isDigit d = true := hds d (by simp)
    simp only [List.cons_append, takeDigits, hd, if_true, List.append_eq]
    rw [ih rest (fun c hc => hds c (by simp [hc])) hrest]

theorem parseNum_round (n : Int) (rest : List Nat) (hrest : headNotDigit rest) :
    parseNum (intToBytes n ++ rest) = some (n, rest) := by
  cases n with
  | ofNat k =>
    have hne := natToDigitsFuel_ne_nil (k + 1) k (by omega)
    have hdig := natToDigitsFuel_digits (k + 1) k (by omega)
    obtain ⟨d, ds, hcons⟩ : ∃ d ds, natToDigits k = d :: ds := by
      cases h : natToDigits k with
      | nil => exact absurd h hne
      | cons d ds => exact ⟨d, ds, rfl⟩
    have hd : isDigit d = true := by
      apply hdig
      rw [show natToDigitsFuel (k + 1) k = natToDigits k from rfl, hcons]
      simp
    have h45 : ¬ (d = 45) := by simp [isDigit] at hd; omega
    have htake : takeDigits ((d :: ds) ++ rest) = (d :: ds, rest) := by
      refine takeDigits_append _ _ ?_ hrest
      intro c hc
      apply hdig
      rw [show natToDigitsFuel (k + 1) k = natToDigits k from rfl, hcons]
      exact hc
    show parseNum (intToBytes (.ofNat k) ++ rest) = some (Int.ofNat k, rest)
    rw [show intToBytes (.ofNat k) = natToDigits k from rfl, hcons]
    simp only [List.cons_append, parseNum]
    rw [if_neg h45, ← List.cons_append, htake]
    show some ((digitsToNat (d :: ds) : Int), rest) = some (Int.ofNat k, rest)
    rw [← hcons, digitsToNat_natToDigits]
    rfl
  | negSucc m =>
    have hne := natToDigitsFuel_ne_nil (m + 2) (m + 1) (by omega)
    obtain ⟨d, ds, hcons⟩ : ∃ d ds, natToDigits (m + 1) = d :: ds := by
      cases h : natToDigits (m + 1) with
      | nil => exact absurd h hne
      | cons d ds => exact ⟨d, ds, rfl⟩
    have htake : takeDigits ((d :: ds) ++ rest) = (d :: ds, rest) := by
      refine takeDigits_append _ _ ?_ hrest
      intro c hc
      apply natToDigitsFuel_digits (m + 2) (m + 1) (by omega)
      rw [show natToDigitsFuel (m + 2) (m + 1) = natToDigits (m + 1) from rfl, hcons]
      exact hc
    show parseNum ((45 :: natToDigits (m + 1)) ++ rest) = some (Int.negSucc m, rest)
    rw [hcons]
    simp only [List.cons_append, parseNum]
    rw [if_pos trivial, ← List.cons_append, htake]
    show some (-(digitsToNat (d :: ds) : Int), rest) = some (Int.negSucc m, rest)
    rw [← hcons, digitsToNat_natToDigits]
    rfl

theorem hexVal_hexDigitChar (x : Nat) (h : x < 16) : hexVal (hexDigitChar x) = some x := by
  unfold hexDigitChar hexVal
  by_cases h10 : x < 10
  · rw [if_pos h10, if_pos (by constructor <;> omega)]
    simp
  · rw [if_neg h10, if_neg (by omega), if_pos (by constructor <;> omega)]
    simp

theorem parseStrBody_round (s : List Nat) : ∀ fuel rest, s.length < fuel →
    parseStrBody fuel (escapeString s ++ 34 :: rest) = some (s, rest) := by
  induction s with
  | nil =>
    intro fuel rest h
    cases fuel with
    | zero => omega
    | succ f => simp [escapeString, parseStrBody]
  | cons c t ih =>
    intro fuel rest h
    cases fuel with
    | zero => omega
    | succ f =>
    have ht : t.length < f := by simp at h; omega
    have iht := ih f rest ht
    show parseStrBody (f + 1) ((escapeChar c ++ escapeString t) ++ 34 :: rest) = _
    rw [List.append_assoc]
    by_cases h34 : c = 34
    · subst h34
      simp [escapeChar, parseStrBody, unescapeChar, iht]
    · by_cases h92 : c = 92
      · subst h92
        simp [escapeChar, parseStrBody, unescapeChar, iht]
      · by_cases h8 : c = 8
        · subst h8
          simp [escapeChar, parseStrBody, unescapeChar, iht]
        · by_cases h9 : c = 9
          · subst h9
            simp [escapeChar, parseStrBody, unescapeChar, iht]
          · by_cases h10 : c = 10
            · subst h10
              simp [escapeChar, parseStrBody, unescapeChar, iht]
            · by_cases h12 : c = 12
              · subst h12
                simp [escapeChar, parseStrBody, unescapeChar, iht]
              · by_cases h13 : c = 13
                · subst h13
                  simp [escapeChar, parseStrBody, unescapeChar, iht]
                · by_cases h32 : c < 32
                  · rw [show escapeChar c =
                        [92, 117, 48, 48, hexDigitChar (c / 16), hexDigitChar (c % 16)] by
                      unfold escapeChar
                      rw [if_neg h34, if_neg h92, if_neg h8, if_neg h9, if_neg h10,
                        if_neg h12, if_neg h13, if_pos h32]]
                    simp only [List.cons_append, List.nil_append, parseStrBody]
                    norm_num
                    rw [show hexVal 48 = some 0 from rfl]
                    rw [hexVal_hexDigitChar (c / 16) (by omega),
                      hexVal_hexDigitChar (c % 16) (by omega)]
                    rw [iht]
                    simp only [Option.some.injEq, Prod.mk.injEq, List.cons.injEq, and_true]
                    omega
                  · rw [show escapeChar c = [c] by
                      unfold escapeChar
                      rw [if_neg h34, if_neg h92, if_neg h8, if_neg h9, if_neg h10,
                        if_neg h12, if_neg h13, if_neg h32]]
                    simp only [List.cons_append, List.nil_append, parseStrBody]
                    rw [if_neg h34, if_neg h92]
                    simp only [List.append_eq, List.nil_append]
                    rw [iht]

theorem intToBytes_head (n : Int) : ∃ d ds, intToBytes n = d :: ds ∧
    (d = 45 ∨ isDigit d = true) := by
  cases n with
  | ofNat k =>
    have hne := natToDigitsFuel_ne_nil (k + 1) k (by omega)
    have hdig := natToDigitsFuel_digits (k + 1) k (by omega)
    cases hcons : natToDigits k with
    | nil => exact absurd hcons hne
    | cons d ds =>
      refine ⟨d, ds, hcons, Or.inr ?_⟩
      apply hdig
      rw [show natToDigitsFuel (k + 1) k = natToDigits k from rfl, hcons]
      simp
  | negSucc m => exact ⟨45, _, rfl, Or.inl rfl⟩

theorem strJ_false_head (j : Json) : ∃ c t, strJ false j = c :: t ∧ c ≠ 93 := by
  cases j with
  | null => exact ⟨110, _, rfl, by omega⟩
  | bool b =>
    cases b with
    | false => exact ⟨102, _, rfl, by omega⟩
    | true => exact ⟨116, _, rfl, by omega⟩
  | num n =>
    obtain ⟨d, ds, hcons, hd⟩ := intToBytes_head n
    refine ⟨d, ds, hcons, ?_⟩
    rcases hd with rfl | hd
    · omega
    · simp [isDigit] at hd
      omega
  | str s => exact ⟨34, _, rfl, by omega⟩
  | arrNil => exact ⟨91, _, rfl, by omega⟩
  | arrCons x tl => exact ⟨91, _, rfl, by omega⟩
  | objNil => exact ⟨123, _, rfl, by omega⟩
  | objCons k v tl => exact ⟨123, _, rfl, by omega⟩

theorem strJ_false_length_pos (j : Json) : 1 ≤ (strJ false j).length := by
  obtain ⟨c, t, h, -⟩ := strJ_false_head j
  rw [h]
  simp

theorem strJ_true_length_pos_arr (j : Json) (h : jwfB 1 j = true) :
    1 ≤ (strJ true j).length := by
  cases j with
  | arrNil => simp [strJ]
  | arrCons x tl => simp [strJ]
  | null => simp [jwfB] at h
  | bool b => simp [jwfB] at h
  | num n => simp [jwfB] at h
  | str s => simp [jwfB] at h
  | objNil => simp [jwfB] at h
  | objCons k v tl => simp [jwfB] at h

theorem strJ_true_length_pos_obj (j : Json) (h : jwfB 2 j = true) :
    1 ≤ (strJ true j).length := by
  cases j with
  | objNil => simp [strJ]
  | objCons k v tl => simp [strJ]
  | null => simp [jwfB] at h
  | bool b => simp [jwfB] at h
  | num n => simp [jwfB] at h
  | str s => simp [jwfB] at h
  | arrNil => simp [jwfB] at h
  | arrCons x tl => simp [jwfB] at h

theorem headNotDigit_arrTail (tl : Json) (h : jwfB 1 tl = true) (rest : List Nat) :
    headNotDigit (strJ true tl ++ rest) := by
  cases tl with
  | arrNil => show isDigit 93 = false; rfl
  | arrCons x tl2 => show isDigit 44 = false; rfl
  | null => simp [jwfB] at h
  | bool b => simp [jwfB] at h
  | num n => simp [jwfB] at h
  | str s => simp [jwfB] at h
  | objNil => simp [jwfB] at h
  | objCons k v tl2 => simp [jwfB] at h

theorem headNotDigit_objTail (tl : Json) (h : jwfB 2 tl = true) (rest : List Nat) :
    headNotDigit (strJ true tl ++ rest) := by
  cases tl with
  | objNil => show isDigit 125 = false; rfl
  | objCons k v tl2 => show isDigit 44 = false; rfl
  | null => simp [jwfB] at h
  | bool b => simp [jwfB] at h
  | num n => simp [jwfB] at h
  | str s => simp [jwfB] at h
  | arrNil => simp [jwfB] at h
  | arrCons x tl2 => simp [jwfB] at h

/-- Round-trip of the modelled `JSON.parse` against the modelled
`JSON.stringify`, in all three parser modes, by strong induction on fuel.
The fuel bound is the length of the serialized form. -/
theorem parseJ_round : ∀ fuel : Nat,
    (∀ j rest, jwfB 0 j = true → headNotDigit rest → (strJ false j).length ≤ fuel →
      parseJ fuel .val (strJ false j ++ rest) = some (j, rest)) ∧
    (∀ j rest, jwfB 1 j = true → (strJ true j).length ≤ fuel →
      parseJ fuel .arrTail (strJ true j ++ rest) = some (j, rest)) ∧
    (∀ j rest, jwfB 2 j = true → (strJ true j).length ≤ fuel →
      parseJ fuel .objTail (strJ true j ++ rest) = some (j, rest)) := by
  intro fuel
  induction fuel using Nat.strong_induction_on with
  | _ fuel ih =>
  refine ⟨?_, ?_, ?_⟩
  · -- mode `.val`
    intro j rest hwf hrest hlen
    cases j with
    | null =>
      obtain ⟨f, rfl⟩ : ∃ f, fuel = f + 1 := by
        cases fuel with
        | zero => simp [strJ] at hlen
        | succ f => exact ⟨f, rfl⟩
      simp [strJ, parseJ]
    | bool b =>
      cases b with
      | true =>
        obtain ⟨f, rfl⟩ : ∃ f, fuel = f + 1 := by
          cases fuel with
          | zero => simp [strJ] at hlen
          | succ f => exact ⟨f, rfl⟩
        simp [strJ, parseJ]
      | false =>
        obtain ⟨f, rfl⟩ : ∃ f, fuel = f + 1 := by
          cases fuel with
          | zero => simp [strJ] at hlen
          | succ f => exact ⟨f, rfl⟩
        simp [strJ, parseJ]
    | num n =>
      obtain ⟨f, rfl⟩ : ∃ f, fuel = f + 1 := by
        cases fuel with
        | zero => have := strJ_false_length_pos (.num n); omega
        | succ f => exact ⟨f, rfl⟩
      obtain ⟨d, ds, hcons, hd⟩ := intToBytes_head n
      have hdb : d = 45 ∨ (48 ≤ d ∧ d ≤ 57) := by
        rcases hd with rfl | hd
        · exact Or.inl rfl
        · simp [isDigit] at hd
          exact Or.inr hd
      have heq : intToBytes n ++ rest = d :: (ds ++ rest) := by
        rw [hcons, List.cons_append]
      show parseJ (f + 1) .val (intToBytes n ++ rest) = some (.num n, rest)
      rw [heq]
      simp only [parseJ]
      rw [if_neg (by omega), if_neg (by omega), if_neg (by omega), if_neg (by omega),
        if_neg (by omega), if_neg (by omega)]
      rw [← heq, parseNum_round n rest hrest]
    | str s =>
      obtain ⟨f, rfl⟩ : ∃ f, fuel = f + 1 := by
        cases fuel with
        | zero => simp [strJ] at hlen
        | succ f => exact ⟨f, rfl⟩
      have heq : strJ false (.str s) ++ rest = 34 :: (escapeString s ++ 34 :: rest) := by
        simp [strJ]
      rw [heq]
      simp only [parseJ]
      rw [if_pos trivial]
      have hb : s.length < (escapeString s ++ 34 :: rest).length + 1 := by
        have := length_le_escapeString s
        simp only [List.length_append, List.length_cons]
        omega
      rw [parseStrBody_round s ((escapeString s ++ 34 :: rest).length + 1) rest hb]
      norm_num
    | arrNil =>
      obtain ⟨g, rfl⟩ : ∃ g, fuel = g + 1 + 1 := by
        cases fuel with
        | zero => simp [strJ] at hlen
        | succ f =>
          cases f with
          | zero => simp [strJ] at hlen
          | succ g => exact ⟨g, rfl⟩
      have heq : strJ false .arrNil ++ rest = 91 :: 93 :: rest := by simp [strJ]
      rw [heq]
      simp only [parseJ]
      rw [if_pos trivial, if_pos trivial]
      norm_num
    | arrCons x tl =>
      have hx : jwfB 0 x = true ∧ jwfB 1 tl = true := by
        have h : (jwfB 0 x && jwfB 1 tl) = true := hwf
        exact Bool.and_eq_true_iff.mp h
      have hlx := strJ_false_length_pos x
      have hltl := strJ_true_length_pos_arr tl hx.2
      have hform : (strJ false (.arrCons x tl)).length =
          1 + (strJ false x).length + (strJ true tl).length := by
        simp [strJ]
        omega
      obtain ⟨g, rfl⟩ : ∃ g, fuel = g + 1 + 1 := by
        cases fuel with
        | zero => omega
        | succ f =>
          cases f with
          | zero => omega
          | succ g => exact ⟨g, rfl⟩
      have heq : strJ false (.arrCons x tl) ++ rest =
          91 :: (strJ false x ++ (strJ true tl ++ rest)) := by
        simp [strJ]
      rw [heq]
      simp only [parseJ]
      rw [if_pos trivial]
      -- now in mode `.arrFirst` with fuel `g + 1`
      obtain ⟨c, t, hhead, h93⟩ := strJ_false_head x
      have heq2 : strJ false x ++ (strJ true tl ++ rest) =
          c :: (t ++ (strJ true tl ++ rest)) := by
        rw [hhead, List.cons_append]
      rw [heq2]
      simp only [parseJ]
      rw [if_neg h93, ← heq2]
      have hx1 := (ih g (by omega)).1 x (strJ true tl ++ rest) hx.1
        (headNotDigit_arrTail tl hx.2 rest) (by omega)
      have htl1 := (ih g (by omega)).2.1 tl rest hx.2 (by omega)
      simp only [hx1, htl1]
      norm_num
    | objNil =>
      obtain ⟨g, rfl⟩ : ∃ g, fuel = g + 1 + 1 := by
        cases fuel with
        | zero => simp [strJ] at hlen
        | succ f =>
          cases f with
          | zero => simp [strJ] at hlen
          | succ g => exact ⟨g, rfl⟩
      have heq : strJ false .objNil ++ rest = 123 :: 125 :: rest := by simp [strJ]
      rw [heq]
      simp only [parseJ]
      rw [if_pos trivial, if_pos trivial]
      norm_num
    | objCons k v tl =>
      have hx : jwfB 0 v = true ∧ jwfB 2 tl = true := by
        have h : (jwfB 0 v && jwfB 2 tl) = true := hwf
        exact Bool.and_eq_true_iff.mp h
      have hlv := strJ_false_length_pos v
      have hltl := strJ_true_length_pos_obj tl hx.2
      have hform : (strJ false (.objCons k v tl)).length =
          4 + (escapeString k).length + (strJ false v).length + (strJ true tl).length := by
        simp [strJ]
        omega
      obtain ⟨g, rfl⟩ : ∃ g, fuel = g + 1 + 1 := by
        cases fuel with
        | zero => omega
        | succ f =>
          cases f with
          | zero => omega
          | succ g => exact ⟨g, rfl⟩
      have heq : strJ false (.objCons k v tl) ++ rest =
          123 :: 34 :: (escapeString k ++ 34 ::
            (58 :: (strJ false v ++ (strJ true tl ++ rest)))) := by
        simp [strJ]
      rw [heq]
      simp only [parseJ]
      rw [if_pos trivial, if_pos trivial]
      have hb : k.length <
          (escapeString k ++ 34 ::
            (58 :: (strJ false v ++ (strJ true tl ++ rest)))).length + 1 := by
        have := length_le_escapeString k
        simp only [List.length_append, List.length_cons]
        omega
      rw [parseStrBody_round k _ (58 :: (strJ false v ++ (strJ true tl ++ rest))) hb]
      have hv1 := (ih g (by omega)).1 v (strJ true tl ++ rest) hx.1
        (headNotDigit_objTail tl hx.2 rest) (by omega)
      have htl1 := (ih g (by omega)).2.2 tl rest hx.2 (by omega)
      simp only [hv1, htl1]
      norm_num
  · -- mode `.arrTail`
    intro j rest hwf hlen
    cases j with
    | arrNil =>
      obtain ⟨f, rfl⟩ : ∃ f, fuel = f + 1 := by
        cases fuel with
        | zero => simp [strJ] at hlen
        | succ f => exact ⟨f, rfl⟩
      have heq : strJ true Json.arrNil ++ rest = 93 :: rest := by simp [strJ]
      rw [heq]
      simp only [parseJ]
      rw [if_pos trivial]
    | arrCons x tl =>
      have hx : jwfB 0 x = true ∧ jwfB 1 tl = true := by
        have h : (jwfB 0 x && jwfB 1 tl) = true := hwf
        exact Bool.and_eq_true_iff.mp h
      have hlx := strJ_false_length_pos x
      have hltl := strJ_true_length_pos_arr tl hx.2
      have hform : (strJ true (.arrCons x tl)).length =
          1 + (strJ false x).length + (strJ true tl).length := by
        simp [strJ]
        omega
      obtain ⟨f, rfl⟩ : ∃ f, fuel = f + 1 := by
        cases fuel with
        | zero => omega
        | succ f => exact ⟨f, rfl⟩
      have heq : strJ true (.arrCons x tl) ++ rest =
          44 :: (strJ false x ++ (strJ true tl ++ rest)) := by
        simp [strJ]
      rw [heq]
      simp only [parseJ]
      rw [if_pos trivial]
      have hx1 := (ih f (by omega)).1 x (strJ true tl ++ rest) hx.1
        (headNotDigit_arrTail tl hx.2 rest) (by omega)
      have htl1 := (ih f (by omega)).2.1 tl rest hx.2 (by omega)
      simp only [hx1, htl1]
      norm_num
    | null => simp [jwfB] at hwf
    | bool b => simp [jwfB] at hwf
    | num n => simp [jwfB] at hwf
    | str s => simp [jwfB] at hwf
    | objNil => simp [jwfB] at hwf
    | objCons k v tl => simp [jwfB] at hwf
  · -- mode `.objTail`
    intro j rest hwf hlen
    cases j with
    | objNil =>
      obtain ⟨f, rfl⟩ : ∃ f, fuel = f + 1 := by
        cases fuel with
        | zero => simp [strJ] at hlen
        | succ f => exact ⟨f, rfl⟩
      have heq : strJ true Json.objNil ++ rest = 125 :: rest := by simp [strJ]
      rw [heq]
      simp only [parseJ]
      rw [if_pos trivial]
    | objCons k v tl =>
      have hx : jwfB 0 v = true ∧ jwfB 2 tl = true := by
        have h : (jwfB 0 v && jwfB 2 tl) = true := hwf
        exact Bool.and_eq_true_iff.mp h
      have hlv := strJ_false_length_pos v
      have hltl := strJ_true_length_pos_obj tl hx.2
      have hform : (strJ true (.objCons k v tl)).length =
          4 + (escapeString k).length + (strJ false v).length + (strJ true tl).length := by
        simp [strJ]
        omega
      obtain ⟨f, rfl⟩ : ∃ f, fuel = f + 1 := by
        cases fuel with
        | zero => omega
        | succ f => exact ⟨f, rfl⟩
      have heq : strJ true (.objCons k v tl) ++ rest =
          44 :: 34 :: (escapeString k ++ 34 ::
            (58 :: (strJ false v ++ (strJ true tl ++ rest)))) := by
        simp [strJ]
      rw [heq]
      simp only [parseJ]
      rw [if_pos trivial, if_pos trivial]
      have hb : k.length <
          (escapeString k ++ 34 ::
            (58 :: (strJ false v ++ (strJ true tl ++ rest)))).length + 1 := by
        have := length_le_escapeString k
        simp only [List.length_append, List.length_cons]
        omega
      rw [parseStrBody_round k _ (58 :: (strJ false v ++ (strJ true tl ++ rest))) hb]
      have hv1 := (ih f (by omega)).1 v (strJ true tl ++ rest) hx.1
        (headNotDigit_objTail tl hx.2 rest) (by omega)
      have htl1 := (ih f (by omega)).2.2 tl rest hx.2 (by omega)
      simp only [hv1, htl1]
      norm_num
    | null => simp [jwfB] at hwf
    | bool b => simp [jwfB] at hwf
    | num n => simp [jwfB] at hwf
    | str s => simp [jwfB] at hwf
    | arrNil => simp [jwfB] at hwf
    | arrCons x tl => simp [jwfB] at hwf

theorem jsonParseFull_strJ (j : Json) (hwf : jwfB 0 j = true) :
    jsonParseFull (strJ false j) = some j := by
  have h := (parseJ_round ((strJ false j).length + 1)).1 j [] hwf trivial (by omega)
  rw [List.append_nil] at h
  unfold jsonParseFull
  rw [h]

/-! ### Frame codec lemmas (`src/protocol.ts`) -/

theorem readUInt32BE_u32be (n : Nat) (rest : List Nat) (h : n < 2 ^ 32) :
    readUInt32BE (u32be n ++ rest) = n := by
  simp only [u32be, List.cons_append, List.nil_append, readUInt32BE]
  omega

theorem u32be_length (n : Nat) : (u32be n).length = 4 := rfl

theorem take_length_append (p t : List Nat) : (p ++ t).take p.length = p := by
  induction p with
  | nil => rfl
  | cons c p ih => simp [List.cons_append, List.take, ih]

theorem drop_length_append (p t : List Nat) : (p ++ t).drop p.length = t := by
  induction p with
  | nil => rfl
  | cons c p ih => simp [List.cons_append, List.drop, ih]

/-- Framing round-trip at the byte level: a frame followed by arbitrary
trailing bytes decodes to its payload value and exactly those trailing
bytes, provided the payload is within the size limit. -/
theorem decodeFrame_encodeFrame (obj : Json) (rest : List Nat)
    (hwf : jwfB 0 obj = true)
    (hlen : (strJ false obj).length ≤ MAX_MESSAGE_SIZE) :
    decodeFrame (encodeFrame obj ++ rest) = .ok (obj, rest) := by
  have h32 : (strJ false obj).length < 2 ^ 32 := by
    have : MAX_MESSAGE_SIZE < 2 ^ 32 := by norm_num [MAX_MESSAGE_SIZE]
    omega
  have hread : readUInt32BE (encodeFrame obj ++ rest) = (strJ false obj).length := by
    rw [encodeFrame, List.append_assoc]
    exact readUInt32BE_u32be _ _ h32
  have hlen4 : (encodeFrame obj ++ rest).length =
      4 + (strJ false obj).length + rest.length := by
    simp [encodeFrame, u32be]
    omega
  have hdrop4 : (encodeFrame obj ++ rest).drop 4 = strJ false obj ++ rest := by
    rw [encodeFrame, List.append_assoc, show (4 : Nat) = (u32be (strJ false obj).length).length
      from rfl, drop_length_append]
  unfold decodeFrame
  rw [if_neg (by omega), hread, if_neg (by omega), if_neg (by omega), hdrop4,
    take_length_append, jsonParseFull_strJ obj hwf]
  rw [show 4 + (strJ false obj).length =
    (u32be (strJ false obj).length ++ strJ false obj).length by simp [u32be]; omega]
  rw [show encodeFrame obj ++ rest =
    (u32be (strJ false obj).length ++ strJ false obj) ++ rest by rw [encodeFrame]]
  rw [drop_length_append]

theorem encodeFrame_length (obj : Json) :
    (encodeFrame obj).length = 4 + (strJ false obj).length := by
  simp only [encodeFrame, u32be, List.length_append, List.length_cons, List.length_nil]

theorem esc_rep (n : Nat) :
    escapeString (List.replicate n 97) = List.replicate n 97 := by
  induction n with
  | zero => rfl
  | succ n ih =>
    simp [List.replicate_succ, escapeString, show escapeChar 97 = [97] from rfl, ih]

theorem strJ_str_length (s : List Nat) :
    (strJ false (.str s)).length = (escapeString s).length + 2 := by
  simp [strJ]

theorem escRep_length (n : Nat) : (escapeString (List.replicate n 97)).length = n := by
  rw [esc_rep]
  exact List.length_replicate n 97

theorem c7big_strlen : (strJ false c7big).length = 4194307 := by
  rw [show c7big = .str (List.replicate 4194305 97) from rfl, strJ_str_length, escRep_length]

/-- C7 counterexample: the round-trip claim fails as stated, because
`decodeFrame` rejects any frame whose declared length exceeds
`MAX_MESSAGE_SIZE`.  For the 4194305-character string `c7big`,
`decodeFrame (encodeFrame c7big)` is `FrameTooLarge`, not
`(c7big, empty-remainder)`. -/
theorem c7_counterexample :
    MAX_MESSAGE_SIZE < (strJ false c7big).length ∧
    decodeFrame (encodeFrame c7big) = .error .frameTooLarge := by
  have hl := c7big_strlen
  refine ⟨by rw [hl]; norm_num [MAX_MESSAGE_SIZE], ?_⟩
  have hread : readUInt32BE (encodeFrame c7big) = (strJ false c7big).length :=
    readUInt32BE_u32be _ _ (by rw [hl]; norm_num)
  have hlen4 := encodeFrame_length c7big
  unfold decodeFrame
  rw [if_neg (by omega), hread, if_pos (by rw [hl]; norm_num [MAX_MESSAGE_SIZE])]

/-- C7 (corrected): for every JSON document `a` (well-formed, ASCII strings
and exact JavaScript integers, as modelled) whose serialized payload is at
most `MAX_MESSAGE_SIZE`, `decodeFrame (encodeFrame a ++ rest)` returns
`(a, rest)`; in particular a frame alone decodes with empty remainder, and
two concatenated frames decode back-to-back with no bytes left over. -/
theorem c7_frame_roundtrip (a b : Json) (rest : List Nat)
    (hwa : jwfB 0 a = true) (hwb : jwfB 0 b = true)
    (hfa : fid a = true) (hfb : fid b = true)
    (hla : (strJ false a).length ≤ MAX_MESSAGE_SIZE)
    (hlb : (strJ false b).length ≤ MAX_MESSAGE_SIZE) :
    decodeFrame (encodeFrame a ++ rest) = .ok (a, rest) ∧
    decodeFrame (encodeFrame a ++ encodeFrame b) = .ok (a, encodeFrame b) ∧
    decodeFrame (encodeFrame b) = .ok (b, []) := by
  refine ⟨decodeFrame_encodeFrame a rest hwa hla,
    decodeFrame_encodeFrame a _ hwa hla, ?_⟩
  have h := decodeFrame_encodeFrame b [] hwb hlb
  rwa [List.append_nil] at h

/-- Witness for C7: the corrected round-trip theorem applied at concrete
inputs, with every hypothesis discharged by evaluation. -/
theorem c7_frame_roundtrip_witness :
    (jwfB 0 c7wa = true ∧ jwfB 0 c7wb = true ∧ fid c7wa = true ∧ fid c7wb = true ∧
      (strJ false c7wa).length ≤ MAX_MESSAGE_SIZE ∧
      (strJ false c7wb).length ≤ MAX_MESSAGE_SIZE) ∧
    (decodeFrame (encodeFrame c7wa ++ [0, 7]) = .ok (c7wa, [0, 7]) ∧
      decodeFrame (encodeFrame c7wa ++ encodeFrame c7wb) = .ok (c7wa, encodeFrame c7wb) ∧
      decodeFrame (encodeFrame c7wb) = .ok (c7wb, [])) :=
  ⟨⟨by decide, by decide, by decide, by decide, by decide, by decide⟩,
    c7_frame_roundtrip c7wa c7wb [0, 7] (by decide) (by decide) (by decide) (by decide)
      (by decide) (by decide)⟩

/-! ### Claim theorems -/

/-- C1 counterexample: with a call in flight on an established connection,
a socket `error` or `close` event does not fail the suspended caller's
wait — the call is still pending and nothing was settled, so the claim
that the wait fails with a connection error is false on the code. -/
theorem c1_counterexample :
    (sockStep c1state .errorEv).mux.pending = [7] ∧
    (sockStep c1state .errorEv).mux.settled = [] ∧
    sockStep c1state .closeEv = c1state :=
  ⟨rfl, rfl, rfl⟩

/-- C1 (corrected): after the connection is established, the client has
removed its only socket `error` listener and never registers a `close`
listener, so an `error` event leaves the whole multiplexer state (pending
calls included) unchanged and a `close` event changes nothing at all:
in-flight calls stay suspended instead of failing with a connection
error. -/
theorem c1_no_rejection_after_connect (s : ClientConn) (h : s.connected = true) :
    (sockStep s .errorEv).mux = s.mux ∧ sockStep s .closeEv = s := by
  constructor
  · simp [sockStep, h]
  · rfl

/-- Witness for C1: the corrected theorem applied at the counterexample
state. -/
theorem c1_no_rejection_after_connect_witness :
    c1state.connected = true ∧
    ((sockStep c1state .errorEv).mux = c1state.mux ∧ sockStep c1state .closeEv = c1state) :=
  ⟨rfl, c1_no_rejection_after_connect c1state rfl⟩

/-- C3 counterexample: a handshake whose confirmation is
`authenticated: false` fails with `AuthError`, yet the session id taken
from the challenge response is already installed and stays installed — a
session exists without a successful handshake, so the claim is false on
the code. -/
theorem c3_counterexample :
    (authenticate ⟨none, [], true⟩ (.ok ()) (.ok ⟨"s1", "abcd"⟩) (.ok ⟨false⟩)).1 =
      .error authNotConfirmedError ∧
    (authenticate ⟨none, [], true⟩ (.ok ()) (.ok ⟨"s1", "abcd"⟩) (.ok ⟨false⟩)).2.sessionId =
      some "s1" ∧
    authNotConfirmedError.kind = .authError :=
  ⟨rfl, rfl, rfl⟩

/-- C3 (corrected): if the final response has `authenticated: false`,
`authenticate` fails with `AuthError` (code `AUTH_FAILED`); but the
session id becomes the client's active session as soon as the challenge
response arrives — after a completed two-step exchange the stored session
id is the challenge's `session_id` whether or not authentication
succeeded. -/
theorem c3_auth_failure_keeps_session (st : CState) (ch : AuthChallenge)
    (conf : AuthConfirmation) :
    (authenticate st (.ok ()) (.ok ch) (.ok ⟨false⟩)).1 = .error authNotConfirmedError ∧
    authNotConfirmedError.kind = .authError ∧
    authNotConfirmedError.code = "AUTH_FAILED" ∧
    (authenticate st (.ok ()) (.ok ch) (.ok conf)).2.sessionId = some ch.session_id := by
  refine ⟨rfl, rfl, rfl, ?_⟩
  cases conf with
  | mk a => cases a <;> rfl

/-- C4 counterexample: `connect` on a client configured with both target
forms succeeds (here with every effect succeeding) and silently dials TCP —
it does not fail, so the claim is false on the code. -/
theorem c4_counterexample :
    connectModel "/root" c4cfg none (fun _ => .ok ()) (.ok ()) =
      .ok (.tcp "localhost" 8200, c4cfg) := by
  rfl

/-- C4 (corrected): `connect` performs no conflict check: with both a
socket path and a truthy host/port configured it proceeds and dials TCP
(host/port wins, the socket path is ignored); an explicit target instead
overwrites the other form (a path target clears the host, a host/port
target clears the socket path). -/
theorem c4_no_conflict_check (home sp h : String) (p : Nat)
    (hh : h ≠ "") (hp : p ≠ 0)
    (net : Transport → Except RaisedError Unit) (auth : Except RaisedError Unit)
    (hnet : net (.tcp h p) = .ok ()) (hauth : auth = .ok ()) :
    connectModel home ⟨some sp, some h, some p⟩ none net auth =
      .ok (.tcp h p, ⟨some sp, some h, some p⟩) ∧
    (∀ c q, (applyTarget c (some (.path q))).host = none) ∧
    (∀ c hst pt, (applyTarget c (some (.hostPort hst pt))).socketPath = none) := by
  refine ⟨?_, fun c q => rfl, fun c hst pt => rfl⟩
  have hct : chooseTransport home ⟨some sp, some h, some p⟩ = .tcp h p := by
    unfold chooseTransport
    rw [if_pos ?_]
    · rfl
    · show (truthyS (some h) && truthyN (some p)) = true
      simp [truthyS, truthyN, hh, hp]
  show connectModel home (⟨some sp, some h, some p⟩ : TargetCfg) none net auth = _
  unfold connectModel
  simp only [applyTarget]
  rw [hct, hnet, hauth]

/-- Witness for C4: the corrected theorem applied at the conflicted
configuration, with every hypothesis discharged by evaluation. -/
theorem c4_no_conflict_check_witness :
    (("localhost" : String) ≠ "" ∧ (8200 : Nat) ≠ 0) ∧
    (connectModel "/root" ⟨some "/tmp/vault.sock", some "localhost", some 8200⟩ none
        (fun _ => .ok ()) (.ok ()) =
      .ok (.tcp "localhost" 8200, ⟨some "/tmp/vault.sock", some "localhost", some 8200⟩) ∧
    (∀ c q, (applyTarget c (some (.path q))).host = none) ∧
    (∀ c hst pt, (applyTarget c (some (.hostPort hst pt))).socketPath = none)) :=
  ⟨⟨by decide, by decide⟩,
    c4_no_conflict_check "/root" "/tmp/vault.sock" "localhost" 8200 (by decide) (by decide)
      (fun _ => .ok ()) (.ok ()) rfl rfl⟩

/-- C6 (confirmed): `raiseOnError` is total over responses — no error
means no raise; a plain-string error raises the generic `VaultError` with
that string as message and code `"UNKNOWN"`; a structured error raises
exactly one error whose kind is `CODE_TO_ERROR`'s entry for the code
(generic `VaultError` fallback), with `message`, `detail`, `suggestion`,
`docs_url` (as `docsUrl`) and `context` (defaulting to `{}`) preserved
verbatim. -/
theorem c6_raiseOnError_total :
    (∀ id res, raiseOnError ⟨id, res, none⟩ = none) ∧
    (∀ id res s, raiseOnError ⟨id, res, some (.inl s)⟩ =
      some ⟨.vaultError, s, "UNKNOWN", none, none, none, .objNil⟩) ∧
    (∀ id res c m d sg du ctx,
      raiseOnError ⟨id, res, some (.inr ⟨some c, some m, d, sg, du, ctx⟩)⟩ =
        some ⟨(CODE_TO_ERROR c).getD .vaultError, m, c, d, sg, du, ctx.getD .objNil⟩) := by
  refine ⟨fun id res => rfl, fun id res s => rfl, fun id res c m d sg du ctx => ?_⟩
  simp [raiseOnError, mkError]

/-- C10 (confirmed): on a structured error whose code is not in the table,
the raised error is the generic `VaultError` kind but its `code` field is
the server's code verbatim (not `"UNKNOWN"`); with no code at all, the
code defaults to `"INTERNAL_ERROR"` (also the generic kind). -/
theorem c10_fallback_code_preserved :
    (∀ id res c m d sg du ctx, CODE_TO_ERROR c = none →
      raiseOnError ⟨id, res, some (.inr ⟨some c, m, d, sg, du, ctx⟩)⟩ =
        some ⟨.vaultError, m.getD "Unknown error", c, d, sg, du, ctx.getD .objNil⟩) ∧
    (∀ id res m d sg du ctx,
      raiseOnError ⟨id, res, some (.inr ⟨none, m, d, sg, du, ctx⟩)⟩ =
        some ⟨.vaultError, m.getD "Unknown error", "INTERNAL_ERROR", d, sg, du,
          ctx.getD .objNil⟩) := by
  constructor
  · intro id res c m d sg du ctx hc
    simp [raiseOnError, mkError, hc]
  · intro id res m d sg du ctx
    have h : CODE_TO_ERROR "INTERNAL_ERROR" = none := by decide
    simp [raiseOnError, mkError, h]

/-- Witness for C10: an unrecognized code, applied through the theorem. -/
theorem c10_fallback_code_preserved_witness :
    CODE_TO_ERROR "SOME_FUTURE_CODE" = none ∧
    raiseOnError ⟨1, none, some (.inr ⟨some "SOME_FUTURE_CODE", some "denied",
        none, none, none, none⟩)⟩ =
      some ⟨.vaultError, (some "denied").getD "Unknown error", "SOME_FUTURE_CODE",
        none, none, none, (none : Option Json).getD .objNil⟩ :=
  ⟨by decide, c10_fallback_code_preserved.1 1 none "SOME_FUTURE_CODE" (some "denied")
    none none none none (by decide)⟩

theorem releaseLeaseM_socketOn (st : CState) (lid : String)
    (outcome : Except RaisedError Unit) :
    ((releaseLeaseM st lid outcome).2.1).socketOn = st.socketOn := by
  unfold releaseLeaseM
  repeat' split
  all_goals rfl

theorem releaseLeaseM_log (st : CState) (lid : String)
    (outcome : Except RaisedError Unit) (h : st.socketOn = true) :
    (releaseLeaseM st lid outcome).2.2 = [lid] := by
  unfold releaseLeaseM
  rw [if_pos h]
  cases outcome <;> rfl

/-- Over a connected client, the close loop issues exactly one
`release_lease` per lease in the snapshot (in order) and keeps the socket
alive for the next iteration, whatever the individual outcomes. -/
theorem closeLoop_log (rel : String → Except RaisedError Unit) :
    ∀ (ls : List String) (st : CState), st.socketOn = true →
      (closeLoop rel ls st).2 = ls ∧ ((closeLoop rel ls st).1).socketOn = true := by
  intro ls
  induction ls with
  | nil => intro st h; exact ⟨rfl, h⟩
  | cons lid rest ih =>
    intro st h
    have hso : ((releaseLeaseM st lid (rel lid)).2.1).socketOn = true := by
      rw [releaseLeaseM_socketOn]; exact h
    obtain ⟨ih1, ih2⟩ := ih _ hso
    simp only [closeLoop]
    refine ⟨?_, ih2⟩
    rw [releaseLeaseM_log st lid (rel lid) h, ih1]
    rfl

/-- C5 (confirmed): `close()` on a connected client issues a
`release_lease` RPC for every currently tracked lease (in order, even when
some of them fail — `rel` is arbitrary), never returns an error, and
afterwards the socket is destroyed and the session id cleared. -/
theorem c5_close_best_effort (st : CState) (rel : String → Except RaisedError Unit)
    (hs : st.socketOn = true) :
    (close st rel).1 = .ok () ∧
    ((close st rel).2.1).socketOn = false ∧
    ((close st rel).2.1).sessionId = none ∧
    (close st rel).2.2 = st.leases := by
  obtain ⟨hlog, -⟩ := closeLoop_log rel st.leases st hs
  exact ⟨rfl, rfl, rfl, hlog⟩

/-- Witness for C5: a client with two leases where releasing the first
fails; `close` still attempts both, reports no error, and clears the
connection and session. -/
theorem c5_close_best_effort_witness :
    (⟨some "sess", ["l1", "l2"], true⟩ : CState).socketOn = true ∧
    ((close ⟨some "sess", ["l1", "l2"], true⟩
        (fun l => if l = "l1" then .error notConnectedError else .ok ())).1 = .ok () ∧
      ((close ⟨some "sess", ["l1", "l2"], true⟩
        (fun l => if l = "l1" then .error notConnectedError else .ok ())).2.1).socketOn = false ∧
      ((close ⟨some "sess", ["l1", "l2"], true⟩
        (fun l => if l = "l1" then .error notConnectedError else .ok ())).2.1).sessionId = none ∧
      (close ⟨some "sess", ["l1", "l2"], true⟩
        (fun l => if l = "l1" then .error notConnectedError else .ok ())).2.2 = ["l1", "l2"]) :=
  ⟨rfl, c5_close_best_effort ⟨some "sess", ["l1", "l2"], true⟩
    (fun l => if l = "l1" then .error notConnectedError else .ok ()) rfl⟩

/-- C8 (confirmed): after a successful `retrieve` the returned lease id is
tracked; after a successful `releaseLease` the id is absent from the
tracked set; `list`, `use` and `authenticate` never modify the set (and
`close` only modifies it through `releaseLease`). -/
theorem c8_lease_set_invariant :
    (∀ (st : CState) (r : RetrieveResult), st.socketOn = true →
      r.lease_id ∈ ((retrieveM st (.ok r)).2).leases) ∧
    (∀ (st : CState) (lid : String) (outcome : Except RaisedError Unit),
      (releaseLeaseM st lid outcome).1 = .ok () →
      lid ∉ ((releaseLeaseM st lid outcome).2.1).leases) ∧
    (∀ (st : CState) (outcome : Except RaisedError Json),
      ((listM st outcome).2).leases = st.leases) ∧
    (∀ (st : CState) (outcome : Except RaisedError Json),
      ((useM st outcome).2).leases = st.leases) ∧
    (∀ (st : CState) (keyr : Except RaisedError Unit) (r1 : Except RaisedError AuthChallenge)
      (r2 : Except RaisedError AuthConfirmation),
      ((authenticate st keyr r1 r2).2).leases = st.leases) := by
  refine ⟨?_, ?_, ?_, ?_, ?_⟩
  · intro st r hs
    simp [retrieveM, hs]
  · intro st lid outcome h
    by_cases hs : st.socketOn
    · cases outcome with
      | error e => simp [releaseLeaseM, hs] at h
      | ok u =>
        simp only [releaseLeaseM, hs, if_true]
        intro hmem
        rw [List.mem_filter] at hmem
        simp at hmem
    · simp [releaseLeaseM, hs] at h
  · intro st outcome
    by_cases hs : st.socketOn <;> cases outcome <;> simp [listM, hs]
  · intro st outcome
    by_cases hs : st.socketOn <;> cases outcome <;> simp [useM, hs]
  · intro st keyr r1 r2
    unfold authenticate
    repeat' split
    all_goals rfl

/-- Witness for C8: the invariant theorem applied at concrete states, with
the success hypotheses discharged by evaluation. -/
theorem c8_lease_set_invariant_witness :
    ("lease-1" ∈ ((retrieveM ⟨some "s", ["a"], true⟩
        (.ok ⟨[54, 56], "lease-1"⟩)).2).leases) ∧
    ("a" ∉ ((releaseLeaseM ⟨some "s", ["a", "b"], true⟩ "a" (.ok ())).2.1).leases) :=
  ⟨c8_lease_set_invariant.1 ⟨some "s", ["a"], true⟩ ⟨[54, 56], "lease-1"⟩ rfl,
    c8_lease_set_invariant.2.1 ⟨some "s", ["a", "b"], true⟩ "a" (.ok ()) rfl⟩

/-- C9 (confirmed): when the `release_lease` RPC fails, `releaseLease`
propagates the error and leaves the client state — the tracked lease set
included — unchanged, so a later `close()` still attempts to release the
lease. -/
theorem c9_release_failure_keeps_lease (st : CState) (lid : String) (e : RaisedError)
    (rel : String → Except RaisedError Unit) (hs : st.socketOn = true) :
    (releaseLeaseM st lid (.error e)).1 = .error e ∧
    (releaseLeaseM st lid (.error e)).2.1 = st ∧
    (lid ∈ st.leases →
      lid ∈ (close ((releaseLeaseM st lid (.error e)).2.1) rel).2.2) := by
  have h1 : (releaseLeaseM st lid (.error e)).2.1 = st := by
    simp [releaseLeaseM, hs]
  refine ⟨by simp [releaseLeaseM, hs], h1, ?_⟩
  intro hmem
  rw [h1]
  obtain ⟨hlog, -⟩ := closeLoop_log rel st.leases st hs
  show lid ∈ (closeLoop rel st.leases st).2
  rw [hlog]
  exact hmem

/-- Witness for C9: a failed release on a tracked lease, applied through
the theorem. -/
theorem c9_release_failure_keeps_lease_witness :
    ((releaseLeaseM ⟨some "s", ["a"], true⟩ "a" (.error notConnectedError)).1 =
        .error notConnectedError ∧
      (releaseLeaseM ⟨some "s", ["a"], true⟩ "a" (.error notConnectedError)).2.1 =
        ⟨some "s", ["a"], true⟩ ∧
      ("a" ∈ (⟨some "s", ["a"], true⟩ : CState).leases →
        "a" ∈ (close ((releaseLeaseM ⟨some "s", ["a"], true⟩ "a"
          (.error notConnectedError)).2.1) (fun _ => .ok ())).2.2)) :=
  c9_release_failure_keeps_lease ⟨some "s", ["a"], true⟩ "a" notConnectedError
    (fun _ => .ok ()) rfl

theorem dispatchResp_buffer (s : MuxState) (j : Json) :
    (dispatchResp s j).buffer = s.buffer := by
  unfold dispatchResp
  repeat' split
  all_goals rfl

theorem onDataLoop_empty (fuel : Nat) (s : MuxState) (h : s.buffer = []) :
    onDataLoop fuel s = s := by
  cases fuel with
  | zero => rfl
  | succ f => simp [onDataLoop, h]

/-- Delivering exactly one whole frame to an empty buffer decodes and
dispatches it — with no check of the declared length against
`MAX_MESSAGE_SIZE` anywhere on the path. -/
theorem onData_single (pending : List Nat) (settled : List (Nat × Except JErr Json))
    (j : Json) (hwf : jwfB 0 j = true) (hlen : (strJ false j).length < 2 ^ 32) :
    onData ⟨[], pending, settled, false⟩ (u32be (strJ false j).length ++ strJ false j) =
      dispatchResp ⟨[], pending, settled, false⟩ j := by
  have hchunk : (u32be (strJ false j).length ++ strJ false j).length =
      4 + (strJ false j).length := by
    simp only [List.length_append, u32be_length]
  have hdrop4 : (u32be (strJ false j).length ++ strJ false j).drop 4 = strJ false j := by
    rw [show (4 : Nat) = (u32be (strJ false j).length).length from rfl, drop_length_append]
  have hdropall : (u32be (strJ false j).length ++ strJ false j).drop
      (4 + (strJ false j).length) = [] := by
    rw [← hchunk, List.drop_length]
  have hread := readUInt32BE_u32be (strJ false j).length (strJ false j) hlen
  show onDataLoop ((u32be (strJ false j).length ++ strJ false j).length + 1)
      ⟨u32be (strJ false j).length ++ strJ false j, pending, settled, false⟩ =
    dispatchResp ⟨[], pending, settled, false⟩ j
  simp only [onDataLoop]
  rw [hread, if_neg (by omega), if_neg (by omega), hdrop4, List.take_length,
    jsonParseFull_strJ j hwf, hdropall]
  have hb : (dispatchResp ⟨[], pending, settled, false⟩ j).buffer = [] :=
    (dispatchResp_buffer ⟨[], pending, settled, false⟩ j).trans rfl
  simp [hb]

theorem strJ_objCons_length (k : List Nat) (v tl : Json) :
    (strJ false (.objCons k v tl)).length =
      4 + (escapeString k).length + (strJ false v).length + (strJ true tl).length := by
  simp [strJ]
  omega

theorem strJ_true_objCons_length (k : List Nat) (v tl : Json) :
    (strJ true (.objCons k v tl)).length =
      4 + (escapeString k).length + (strJ false v).length + (strJ true tl).length := by
  simp [strJ]
  omega

theorem c2resp_strlen : (strJ false c2resp).length = 4194324 := by
  rw [show c2resp = .objCons idKey (.num 1)
      (.objCons resultKey (.str c2big) .objNil) from rfl,
    strJ_objCons_length, strJ_true_objCons_length, strJ_str_length,
    show c2big = List.replicate 4194304 97 from rfl, escRep_length,
    show (escapeString idKey).length = 2 from rfl,
    show (escapeString resultKey).length = 6 from rfl,
    show (strJ false (.num 1)).length = 1 from rfl,
    show (strJ true Json.objNil).length = 1 from rfl]

/-- C2 (code bug): the declared length of this frame, 4194324, exceeds
`MAX_MESSAGE_SIZE`; `decodeFrame` — the codec the spec describes — rejects
it with the frame-too-large error, yet the client's receive path `onData`
decodes it and dispatches it to the pending call with id 1 (the call
resolves with the oversized result and the pending set empties), because
`onData` re-implements frame decoding without the size check. -/
theorem c2_oversized_frame_dispatched :
    MAX_MESSAGE_SIZE < (strJ false c2resp).length ∧
    decodeFrame (u32be (strJ false c2resp).length ++ strJ false c2resp) =
      .error .frameTooLarge ∧
    onData ⟨[], [1], [], false⟩ (u32be (strJ false c2resp).length ++ strJ false c2resp) =
      ⟨[], [], [(1, .ok (.str c2big))], false⟩ := by
  have hl : (strJ false c2resp).length = 4194324 := c2resp_strlen
  refine ⟨by rw [hl]; norm_num [MAX_MESSAGE_SIZE], ?_, ?_⟩
  · have hread := readUInt32BE_u32be (strJ false c2resp).length (strJ false c2resp)
      (by rw [hl]; norm_num)
    have hlen4 : (u32be (strJ false c2resp).length ++ strJ false c2resp).length =
        4 + (strJ false c2resp).length := by
      rw [List.length_append, u32be_length]
    unfold decodeFrame
    rw [if_neg (by omega), hread, if_pos (by rw [hl]; norm_num [MAX_MESSAGE_SIZE])]
  · rw [onData_single [1] [] c2resp (by decide) (by rw [hl]; norm_num)]
    rfl
